import Mathlib

/-!
# Verification of the `configuration` service (the-anna-project/configuration)

Shallow embedding of the three source files of the repository:

* `key.go`     — the storage-key builders (`namespaceKey`, `pieceListKey`,
  `pieceUsedKey`, `rulerListKey`, `rulerUsedKey`);
* `spec.go`    — `appendToNamespace` and `labelsToNamespace`;
* `service.go` — the selection engine (`Create`, `Delete`, `Execute`,
  `Failure`, `Success`) and the two built-in rulers registered by `Boot`.

The storage collaborator (an external dependency) is modelled in memory,
following its interface contract: scored sets and scalar records held in
association lists, with `Get` on a missing scalar and random selection from
an empty scored set failing with a not-found error.  The pseudo-random draw
of `GetRandomFromScoredSet` is modelled by an explicit index argument `rnd`
threaded through `Execute`.  Operations return the (possibly mutated) store
together with an `Except` result, mirroring the fact that storage writes
performed before a Go function returns an error persist.
-/

namespace AnnaConfiguration

/-! ## Association-list maps

In-memory model of the keyed data of the storage collaborator and of the
local piece cache of the service (`service.pieces`). -/

def getEntry {β : Type} : List (String × β) → String → Option β
  | [], _ => none
  | (k, v) :: t, key => if k = key then some v else getEntry t key

def setEntry {β : Type} : List (String × β) → String → β → List (String × β)
  | [], key, v => [(key, v)]
  | (k, w) :: t, key, v => if k = key then (key, v) :: t else (k, w) :: setEntry t key v

def removeEntry {β : Type} : List (String × β) → String → List (String × β)
  | [], _ => []
  | (k, v) :: t, key => if k = key then removeEntry t key else (k, v) :: removeEntry t key

/-- Go `strings.HasPrefix s pre`. -/
def strStartsWith (s pre : String) : Bool :=
  pre.data.isPrefixOf s.data

/-! ## key.go -/

def namespaceKey (ns : String) : String :=
  "service:configuration:namespace:" ++ ns

def pieceListKey (ns : String) : String :=
  namespaceKey ns ++ ":piece:list"

def pieceUsedKey (ns : String) : String :=
  namespaceKey ns ++ ":piece:used"

def rulerListKey (ns : String) : String :=
  namespaceKey ns ++ ":ruler:list"

def rulerUsedKey (ns : String) : String :=
  namespaceKey ns ++ ":ruler:used"

/-! ## spec.go -/

/-- `appendToNamespace` appends the given label to the given namespace,
using the dash as separator. -/
def appendToNamespace (ns label : String) : String :=
  ns ++ "-" ++ label

/-- `labelsToNamespace` sorts the labels ascending (Go `sort.Strings`) and
joins them with the dash (Go `strings.Join(labels, "-")`). -/
def labelsToNamespace (labels : List String) : String :=
  String.intercalate "-" (List.insertionSort (fun a b : String => a ≤ b) labels)

/-! ## Storage collaborator model -/

inductive Err : Type
  | invalidContext
  | notFound
deriving DecidableEq, Repr

instance {ε α : Type} [DecidableEq ε] [DecidableEq α] : DecidableEq (Except ε α) := fun a b =>
  match a, b with
  | Except.error x, Except.error y =>
    if h : x = y then isTrue (by rw [h]) else isFalse (fun hc => by cases hc; exact h rfl)
  | Except.error _, Except.ok _ => isFalse (fun hc => by cases hc)
  | Except.ok _, Except.error _ => isFalse (fun hc => by cases hc)
  | Except.ok x, Except.ok y =>
    if h : x = y then isTrue (by rw [h]) else isFalse (fun hc => by cases hc; exact h rfl)

abbrev ScoredSet : Type := List (String × Int)

structure Store (V : Type) : Type where
  sets : List (String × ScoredSet)
  scalars : List (String × String)
  cache : List (String × List V)
deriving DecidableEq

variable {V : Type}

/-- Members of the scored set at `key`; an absent key is the empty set. -/
def members (s : Store V) (key : String) : ScoredSet :=
  (getEntry s.sets key).getD []

/-- `Exists(key)`: a scored-set key exists iff it has at least one member. -/
def storeExists (s : Store V) (key : String) : Bool :=
  !(members s key).isEmpty

/-- `ExistsInScoredSet(key, member)`. -/
def existsInScoredSet (s : Store V) (key member : String) : Bool :=
  (getEntry (members s key) member).isSome

/-- `SetElementByScore(key, member, score)`. -/
def setElementByScore (s : Store V) (key member : String) (score : Int) : Store V :=
  { s with sets := setEntry s.sets key (setEntry (members s key) member score) }

/-- `IncrementScoredElement(key, member, delta)`: atomic increment, creating
the member at `delta` if absent. -/
def incrementScoredElement (s : Store V) (key member : String) (delta : Int) : Store V :=
  let newScore := (getEntry (members s key) member).getD 0 + delta
  { s with sets := setEntry s.sets key (setEntry (members s key) member newScore) }

/-- The single maximally-scored member, with a deterministic tie-break
(the earlier entry wins), per the collaborator contract for
`GetHighestScoredElements(key, 1)`. -/
def maxPair : ScoredSet → Option (String × Int)
  | [] => none
  | (m, sc) :: t =>
    match maxPair t with
    | none => some (m, sc)
    | some (m2, sc2) => if sc2 > sc then some (m2, sc2) else some (m, sc)

/-- `GetHighestScoredElements(key, 1)`, as the optional single top member. -/
def getHighest1 (s : Store V) (key : String) : Option String :=
  (maxPair (members s key)).map Prod.fst

/-- `GetRandomFromScoredSet(key)`: fails if the set is empty, otherwise
returns the member selected by the pseudo-random index `rnd`. -/
def getRandom (s : Store V) (key : String) (rnd : Nat) : Except Err String :=
  match members s key with
  | [] => Except.error Err.notFound
  | x :: t => Except.ok (((x :: t).get ⟨rnd % (x :: t).length, Nat.mod_lt _ (Nat.succ_pos t.length)⟩).1)

/-- Scalar `Get(key)`: fails with the not-found error of the collaborator when
the record is absent. -/
def getScalar (s : Store V) (key : String) : Except Err String :=
  match getEntry s.scalars key with
  | some v => Except.ok v
  | none => Except.error Err.notFound

/-- Scalar `Set(key, value)`. -/
def setScalar (s : Store V) (key v : String) : Store V :=
  { s with scalars := setEntry s.scalars key v }

/-- `Remove(key)` on a scored-set key. -/
def removeKey (s : Store V) (key : String) : Store V :=
  { s with sets := removeEntry s.sets key }

/-- Scalar record observer. -/
def Store.scalar (s : Store V) (key : String) : Option String :=
  getEntry s.scalars key

/-- Score observer for one member of one scored set. -/
def Store.score (s : Store V) (key member : String) : Option Int :=
  getEntry (members s key) member

/-- Local-cache observer. -/
def Store.cacheGet (s : Store V) (key : String) : Option (List V) :=
  getEntry s.cache key

/-! ## service.go -/

def randomRuler : String := "random"

def highestRuler : String := "highest"

/-- The stage signal carried by the call context
(`currentstage.Value` with its `Trial()` and `Replay()` predicates). -/
structure Stage : Type where
  trial : Bool
  replay : Bool
deriving DecidableEq

inductive RulerKind : Type
  | random
  | highest
deriving DecidableEq

/-- The ruler registry after `Boot` ran (its `sync.Once` body registers
exactly the `random` and the `highest` ruler). -/
def lookupRuler (name : String) : Option RulerKind :=
  if name = randomRuler then some RulerKind.random
  else if name = highestRuler then some RulerKind.highest
  else none

/-- The two ruler closures registered by `Boot`:
`random` draws a pseudo-random member of the piece scored set of the namespace;
`highest` takes the single highest-scored member and fails with the
not-found error when there is none. -/
def runRuler (k : RulerKind) (s : Store V) (labels : List String) (rnd : Nat) : Except Err String :=
  match k with
  | RulerKind.random => getRandom s (pieceListKey (labelsToNamespace labels)) rnd
  | RulerKind.highest =>
    match getHighest1 s (pieceListKey (labelsToNamespace labels)) with
    | none => Except.error Err.notFound
    | some e => Except.ok e

/-- `service.Create`: seeds the ruler scored set on a first trial, inserts
the piece at score 0 only when absent, and unconditionally overwrites the
local cache entry under `appendToNamespace(pieceListKey(ns), pieceID)`. -/
def Create (ctx : Option Stage) (labels : List String) (pieceID : String)
    (results : List V) (s : Store V) : Store V × Except Err Unit :=
  match ctx with
  | none => (s, Except.error Err.invalidContext)
  | some st =>
    let ns := labelsToNamespace labels
    let s1 :=
      if st.trial then
        (if storeExists s (rulerListKey ns) then s
         else setElementByScore (setElementByScore s (rulerListKey ns) randomRuler 0)
            (rulerListKey ns) highestRuler 0)
      else s
    let s2 :=
      if existsInScoredSet s1 (pieceListKey ns) pieceID then s1
      else setElementByScore s1 (pieceListKey ns) pieceID 0
    ({ s2 with cache := setEntry s2.cache (appendToNamespace (pieceListKey ns) pieceID) results },
      Except.ok ())

/-- `service.Delete`: removes the ruler scored set and the piece scored set,
then deletes every local cache entry whose key has the
piece-list key of the namespace as a prefix. -/
def Delete (_ctx : Option Stage) (labels : List String) (s : Store V) :
    Store V × Except Err Unit :=
  let ns := labelsToNamespace labels
  let s1 := removeKey s (rulerListKey ns)
  let s2 := removeKey s1 (pieceListKey ns)
  ({ s2 with cache := s2.cache.filter (fun p => !(strStartsWith p.1 (pieceListKey ns))) },
    Except.ok ())

/-- The ruler name resolved by the trial branch of `Execute`: the highest-scored
member of the ruler scored set of the namespace, defaulting to `"random"` when
that query yields no element. -/
def trialRuler (s : Store V) (ns : String) : String :=
  match getHighest1 s (rulerListKey ns) with
  | none => randomRuler
  | some e => e

/-- Tail of `service.Execute` after the ruler identifier was resolved:
registry lookup, ruler invocation, used-piece record write, and the local
cache lookup by the bare piece identifier. -/
def executeRuler (ns : String) (labels : List String) (rnd : Nat) (s1 : Store V) :
    Except Err String → Store V × Except Err (String × List V)
  | Except.error e => (s1, Except.error e)
  | Except.ok rulerID =>
    match lookupRuler rulerID with
    | none => (s1, Except.error Err.notFound)
    | some k =>
      match runRuler k s1 labels rnd with
      | Except.error e => (s1, Except.error e)
      | Except.ok pieceID =>
        (setScalar s1 (pieceUsedKey ns) pieceID,
          Except.ok (pieceID, (getEntry s1.cache pieceID).getD []))

/-- `service.Execute` for a call context that carries a stage value:
the trial branch resolves and records the used ruler, the replay branch
reads the recorded ruler back; the Go variable `rulerID` starts out as the
empty string when neither branch runs. -/
def executeStaged (st : Stage) (labels : List String) (rnd : Nat) (s : Store V) :
    Store V × Except Err (String × List V) :=
  let ns := labelsToNamespace labels
  let s1 := if st.trial then setScalar s (rulerUsedKey ns) (trialRuler s ns) else s
  let ridE := if st.replay then getScalar s1 (rulerUsedKey ns)
              else Except.ok (if st.trial then trialRuler s ns else "")
  executeRuler ns labels rnd s1 ridE

/-- `service.Execute`. -/
def Execute (ctx : Option Stage) (labels : List String) (rnd : Nat) (s : Store V) :
    Store V × Except Err (String × List V) :=
  match ctx with
  | none => (s, Except.error Err.invalidContext)
  | some st => executeStaged st labels rnd s

/-- `service.Failure`: delegates to `Delete`. -/
def Failure (ctx : Option Stage) (labels : List String) (s : Store V) :
    Store V × Except Err Unit :=
  Delete ctx labels s

/-- `service.Success`: reads the used-ruler record and increments the score
of that ruler, then reads the used-piece record and increments the score of
that piece; a failing read aborts the call with the storage error. -/
def Success (_ctx : Option Stage) (labels : List String) (s : Store V) :
    Store V × Except Err Unit :=
  let ns := labelsToNamespace labels
  match getScalar s (rulerUsedKey ns) with
  | Except.error e => (s, Except.error e)
  | Except.ok rulerID =>
    let s1 := incrementScoredElement s (rulerListKey ns) rulerID 1
    match getScalar s1 (pieceUsedKey ns) with
    | Except.error e => (s1, Except.error e)
    | Except.ok pieceID =>
      (incrementScoredElement s1 (pieceListKey ns) pieceID 1, Except.ok ())

/-! ## Helper lemmas about the map model -/

theorem getEntry_setEntry_self {β : Type} (l : List (String × β)) (k : String) (v : β) :
    getEntry (setEntry l k v) k = some v := by
  induction l with
  | nil => simp [setEntry, getEntry]
  | cons hd t ih =>
    obtain ⟨k2, w⟩ := hd
    by_cases hk : k2 = k
    · simp [setEntry, hk, getEntry]
    · simp [setEntry, hk, getEntry, ih]

theorem getEntry_setEntry_ne {β : Type} (l : List (String × β)) (k k2 : String) (v : β)
    (h : k ≠ k2) : getEntry (setEntry l k v) k2 = getEntry l k2 := by
  induction l with
  | nil => simp [setEntry, getEntry, h]
  | cons hd t ih =>
    obtain ⟨k3, w⟩ := hd
    by_cases hk : k3 = k
    · subst hk
      simp [setEntry, getEntry, h]
    · simp [setEntry, hk, getEntry, ih]

theorem getEntry_removeEntry_self {β : Type} (l : List (String × β)) (k : String) :
    getEntry (removeEntry l k) k = none := by
  induction l with
  | nil => rfl
  | cons hd t ih =>
    obtain ⟨k2, w⟩ := hd
    by_cases hk : k2 = k
    · simp [removeEntry, hk, ih]
    · simp [removeEntry, hk, getEntry, ih]

theorem getEntry_removeEntry_ne {β : Type} (l : List (String × β)) (k k2 : String)
    (h : k ≠ k2) : getEntry (removeEntry l k) k2 = getEntry l k2 := by
  induction l with
  | nil => rfl
  | cons hd t ih =>
    obtain ⟨k3, w⟩ := hd
    by_cases hk : k3 = k
    · subst hk
      simp [removeEntry, getEntry, h, ih]
    · by_cases hk2 : k3 = k2
      · simp [removeEntry, hk, getEntry, hk2, Ne.symm h]
      · simp [removeEntry, hk, getEntry, hk2, ih]

theorem mem_setEntry {β : Type} {l : List (String × β)} {k : String} {v : β}
    {kv : String × β} (h : kv ∈ setEntry l k v) : kv.1 = k ∨ kv ∈ l := by
  induction l with
  | nil =>
    simp [setEntry] at h
    subst h
    exact Or.inl rfl
  | cons hd t ih =>
    obtain ⟨k2, w⟩ := hd
    by_cases hk : k2 = k
    · simp [setEntry, hk] at h
      rcases h with h | h
      · subst h
        exact Or.inl rfl
      · exact Or.inr (List.mem_cons_of_mem _ h)
    · simp [setEntry, hk] at h
      rcases h with h | h
      · subst h
        exact Or.inr (List.mem_cons_self _ _)
      · rcases ih h with h2 | h2
        · exact Or.inl h2
        · exact Or.inr (List.mem_cons_of_mem _ h2)

theorem isPrefixOf_append_self (l1 l2 : List Char) : l1.isPrefixOf (l1 ++ l2) = true := by
  induction l1 with
  | nil => simp [List.isPrefixOf]
  | cons a t ih => simp [List.isPrefixOf, ih]

/-! ## Helper lemmas about keys -/

theorem append_ne_of_ne (a : String) {b c : String} (h : b ≠ c) : a ++ b ≠ a ++ c := by
  intro he
  apply h
  have hd : a.data ++ b.data = a.data ++ c.data := congrArg String.data he
  exact String.ext (List.append_cancel_left hd)

theorem rulerUsed_ne_pieceUsed (ns : String) : rulerUsedKey ns ≠ pieceUsedKey ns :=
  append_ne_of_ne (namespaceKey ns) (by decide)

theorem pieceUsed_ne_rulerUsed (ns : String) : pieceUsedKey ns ≠ rulerUsedKey ns :=
  (rulerUsed_ne_pieceUsed ns).symm

theorem rulerList_ne_pieceList (ns : String) : rulerListKey ns ≠ pieceListKey ns :=
  append_ne_of_ne (namespaceKey ns) (by decide)

theorem pieceList_ne_rulerList (ns : String) : pieceListKey ns ≠ rulerListKey ns :=
  (rulerList_ne_pieceList ns).symm

/-! ## Helper lemmas about the store operations -/

variable {V : Type}

theorem members_setScalar (s : Store V) (k v key : String) :
    members (setScalar s k v) key = members s key := rfl

theorem cache_setScalar (s : Store V) (k v : String) :
    (setScalar s k v).cache = s.cache := rfl

theorem scalar_setScalar_self (s : Store V) (k v : String) :
    (setScalar s k v).scalar k = some v :=
  getEntry_setEntry_self s.scalars k v

theorem scalar_setScalar_ne (s : Store V) (k v k2 : String) (h : k ≠ k2) :
    (setScalar s k v).scalar k2 = s.scalar k2 :=
  getEntry_setEntry_ne s.scalars k k2 v h

theorem scalars_setElementByScore (s : Store V) (k m : String) (sc : Int) :
    (setElementByScore s k m sc).scalars = s.scalars := rfl

theorem cache_setElementByScore (s : Store V) (k m : String) (sc : Int) :
    (setElementByScore s k m sc).cache = s.cache := rfl

theorem members_setElementByScore_self (s : Store V) (k m : String) (sc : Int) :
    members (setElementByScore s k m sc) k = setEntry (members s k) m sc := by
  simp [setElementByScore, members, getEntry_setEntry_self]

theorem members_setElementByScore_ne (s : Store V) (k m k2 : String) (sc : Int) (h : k ≠ k2) :
    members (setElementByScore s k m sc) k2 = members s k2 := by
  simp [setElementByScore, members, getEntry_setEntry_ne _ _ _ _ h]

theorem scalars_incrementScoredElement (s : Store V) (k m : String) (d : Int) :
    (incrementScoredElement s k m d).scalars = s.scalars := rfl

theorem cache_incrementScoredElement (s : Store V) (k m : String) (d : Int) :
    (incrementScoredElement s k m d).cache = s.cache := rfl

theorem members_incrementScoredElement_self (s : Store V) (k m : String) (d : Int) :
    members (incrementScoredElement s k m d) k
      = setEntry (members s k) m ((getEntry (members s k) m).getD 0 + d) := by
  simp [incrementScoredElement, members, getEntry_setEntry_self]

theorem members_incrementScoredElement_ne (s : Store V) (k m k2 : String) (d : Int)
    (h : k ≠ k2) :
    members (incrementScoredElement s k m d) k2 = members s k2 := by
  simp [incrementScoredElement, members, getEntry_setEntry_ne _ _ _ _ h]

theorem getHighest1_setScalar (s : Store V) (k v key : String) :
    getHighest1 (setScalar s k v) key = getHighest1 s key := rfl

/-- The empty store over `Nat` payloads, used for concrete evaluations. -/
def emptyStoreNat : Store Nat := ⟨[], [], []⟩

/-! ## Claim C3 -/

/-- C3: namespace derivation is permutation-invariant — for every list of
labels and every permutation of it, `labelsToNamespace` yields the identical
string; in particular labels `["stageA", "featureX"]` derive the namespace
`"featureX-stageA"`. -/
theorem C3_labelsToNamespace_perm_invariant :
    (∀ l1 l2 : List String, List.Perm l1 l2 → labelsToNamespace l1 = labelsToNamespace l2) ∧
    labelsToNamespace ["stageA", "featureX"] = "featureX-stageA" := by
  constructor
  · intro l1 l2 hp
    have key : List.insertionSort (fun a b : String => a ≤ b) l1
        = List.insertionSort (fun a b : String => a ≤ b) l2 :=
      List.eq_of_perm_of_sorted
        (((List.perm_insertionSort _ l1).trans hp).trans (List.perm_insertionSort _ l2).symm)
        (List.sorted_insertionSort _ l1) (List.sorted_insertionSort _ l2)
    unfold labelsToNamespace
    rw [key]
  · have hle : ¬ (("stageA" : String) ≤ "featureX") := by
      rw [String.le_iff_toList_le]; decide
    simp only [labelsToNamespace, List.insertionSort, List.orderedInsert, if_neg hle]
    rfl

/-- Witness for C3: the invariance theorem applied to a concrete
permutation. -/
theorem C3_witness : labelsToNamespace ["b", "a"] = labelsToNamespace ["a", "b"] :=
  C3_labelsToNamespace_perm_invariant.1 ["b", "a"] ["a", "b"] (by decide)

/-! ## Claim C5 -/

/-- C5 counterexample: with a stage value present in the context that
asserts neither trial nor replay, `Execute` fails with the not-found error
("no ruler for key"), not with `InvalidContext` as the claim states. -/
theorem C5_counterexample :
    (Execute (some ⟨false, false⟩) ["a"] 0 emptyStoreNat).2 = Except.error Err.notFound ∧
    Err.notFound ≠ Err.invalidContext := by
  exact ⟨rfl, by decide⟩

/-- C5 amended: if the stage value is absent from the call context,
`Execute` fails with `InvalidContext`; if a stage value is present but
asserts neither trial nor replay, `Execute` fails with the not-found error
(the empty ruler identifier resolves to no registered ruler). -/
theorem C5_amended (labels : List String) (rnd : Nat) (s : Store V) (st : Stage)
    (h1 : st.trial = false) (h2 : st.replay = false) :
    Execute none labels rnd s = (s, Except.error Err.invalidContext) ∧
    (Execute (some st) labels rnd s).2 = Except.error Err.notFound := by
  refine ⟨rfl, ?_⟩
  simp [Execute, executeStaged, h1, h2, executeRuler, lookupRuler, randomRuler, highestRuler]

/-- Witness for C5 at a concrete stage value and store. -/
theorem C5_witness :
    Execute none ["a"] 0 emptyStoreNat = (emptyStoreNat, Except.error Err.invalidContext) ∧
    (Execute (some ⟨false, false⟩) ["a"] 0 emptyStoreNat).2 = Except.error Err.notFound :=
  C5_amended ["a"] 0 emptyStoreNat ⟨false, false⟩ rfl rfl

/-! ## Claim C9 -/

/-- C9: for a namespace with no ruler list, no piece list and no used-ruler
record in storage (no `Create` ever ran), `Execute` fails with the
not-found error in every stage: in trial mode the defaulted `"random"`
ruler finds an empty piece scored set, and in replay mode the used-ruler
record read fails. -/
theorem C9_execute_notFound (labels : List String) (rnd : Nat) (s : Store V) (st : Stage)
    (hrl : members s (rulerListKey (labelsToNamespace labels)) = [])
    (hpl : members s (pieceListKey (labelsToNamespace labels)) = [])
    (hru : s.scalar (rulerUsedKey (labelsToNamespace labels)) = none) :
    (Execute (some st) labels rnd s).2 = Except.error Err.notFound := by
  have htr : trialRuler s (labelsToNamespace labels) = randomRuler := by
    simp [trialRuler, getHighest1, hrl, maxPair]
  cases ht : st.trial with
  | true =>
    have hread : getScalar (setScalar s (rulerUsedKey (labelsToNamespace labels)) randomRuler)
        (rulerUsedKey (labelsToNamespace labels)) = Except.ok randomRuler := by
      simp [getScalar, setScalar, getEntry_setEntry_self]
    cases hr : st.replay with
    | true =>
      simp [Execute, executeStaged, ht, hr, htr, hread, executeRuler, lookupRuler,
        runRuler, getRandom, members_setScalar, hpl]
    | false =>
      simp [Execute, executeStaged, ht, hr, htr, executeRuler, lookupRuler,
        runRuler, getRandom, members_setScalar, hpl]
  | false =>
    cases hr : st.replay with
    | true =>
      have hread : getScalar s (rulerUsedKey (labelsToNamespace labels))
          = Except.error Err.notFound := by
        simp [getScalar, Store.scalar] at hru ⊢
        rw [hru]
      simp [Execute, executeStaged, ht, hr, hread, executeRuler]
    | false =>
      simp [Execute, executeStaged, ht, hr, executeRuler, lookupRuler, randomRuler, highestRuler]

/-- Witness for C9 on the empty store in trial mode. -/
theorem C9_witness :
    (Execute (some ⟨true, false⟩) ["a"] 0 emptyStoreNat).2 = Except.error Err.notFound :=
  C9_execute_notFound ["a"] 0 emptyStoreNat ⟨true, false⟩ rfl rfl rfl

/-! ## Claim C10 -/

/-- C10 counterexample: `labelsToNamespace` and `appendToNamespace` use the
same dash separator, and prefix matching on a piece-list key is ambiguous
across namespaces — the namespace derived from the single label
`"a:piece:list"` produces a cache key that has the piece-list key of the
distinct namespace `"a"` as a prefix. -/
theorem C10_counterexample :
    strStartsWith (appendToNamespace (pieceListKey (labelsToNamespace ["a:piece:list"])) "x")
        (pieceListKey (labelsToNamespace ["a"])) = true ∧
    labelsToNamespace ["a:piece:list"] ≠ labelsToNamespace ["a"] ∧
    appendToNamespace "l1" "l2" = labelsToNamespace ["l1", "l2"] := by
  refine ⟨rfl, by decide, ?_⟩
  have hle : (("l1" : String) ≤ "l2") := by
    rw [String.le_iff_toList_le]; decide
  simp only [labelsToNamespace, List.insertionSort, List.orderedInsert, if_pos hle]
  rfl

/-- C10 amended: `appendToNamespace` joins with the same dash separator as
`labelsToNamespace`; every cache key built for a namespace has that
own piece-list key of the namespace as a prefix (so the
prefix scan of Delete removes all cache entries owned by the namespace), but the prefix test is not
unambiguous across namespaces. -/
theorem C10_amended :
    ∀ ns pid : String,
      strStartsWith (appendToNamespace (pieceListKey ns) pid) (pieceListKey ns) = true := by
  intro ns pid
  have h2 : (appendToNamespace (pieceListKey ns) pid).data
      = (pieceListKey ns).data ++ ("-".data ++ pid.data) := by
    show ((pieceListKey ns).data ++ "-".data) ++ pid.data
        = (pieceListKey ns).data ++ ("-".data ++ pid.data)
    rw [List.append_assoc]
  unfold strStartsWith
  rw [h2]
  exact isPrefixOf_append_self _ _

/-! ## Execute-level helper lemmas -/

/-- The storage-key prefix shared by every key `key.go` builds. -/
def nsPrefix : String := "service:configuration:namespace:"

theorem strStartsWith_of_data_eq {s pre : String} {rest : List Char}
    (h : s.data = pre.data ++ rest) : strStartsWith s pre = true := by
  unfold strStartsWith
  rw [h]
  exact isPrefixOf_append_self _ _

theorem cacheKey_startsWith_nsPrefix (ns pid : String) :
    strStartsWith (appendToNamespace (pieceListKey ns) pid) nsPrefix = true := by
  have hd : (appendToNamespace (pieceListKey ns) pid).data
      = nsPrefix.data ++ (ns.data ++ ((":piece:list" : String).data
          ++ (("-" : String).data ++ pid.data))) := by
    show ((((nsPrefix.data ++ ns.data) ++ (":piece:list" : String).data)
        ++ ("-" : String).data) ++ pid.data) = _
    simp [List.append_assoc]
  exact strStartsWith_of_data_eq hd

theorem getEntry_none_of_startsWith {β : Type} (l : List (String × β)) (pid pre : String)
    (hall : ∀ kv ∈ l, strStartsWith kv.1 pre = true)
    (hpid : strStartsWith pid pre = false) : getEntry l pid = none := by
  induction l with
  | nil => rfl
  | cons hd t ih =>
    obtain ⟨k, v⟩ := hd
    by_cases hk : k = pid
    · subst hk
      have := hall (k, v) (List.mem_cons_self _ _)
      rw [this] at hpid
      cases hpid
    · simp only [getEntry, hk, if_false]
      exact ih (fun kv h => hall kv (List.mem_cons_of_mem _ h))

theorem cache_Create (st : Stage) (labels : List String) (pid : String) (res : List V)
    (s : Store V) :
    (Create (some st) labels pid res s).1.cache
      = setEntry s.cache (appendToNamespace (pieceListKey (labelsToNamespace labels)) pid) res := by
  unfold Create
  simp only []
  split_ifs <;> simp [cache_setElementByScore]

theorem executeRuler_scalar_rulerUsed (ns : String) (labels : List String) (rnd : Nat)
    (s1 : Store V) (e : Except Err String) :
    (executeRuler ns labels rnd s1 e).1.scalar (rulerUsedKey ns)
      = s1.scalar (rulerUsedKey ns) := by
  cases e with
  | error er => rfl
  | ok rid =>
    cases hl : lookupRuler rid with
    | none => simp [executeRuler, hl]
    | some k =>
      cases hr : runRuler k s1 labels rnd with
      | error er => simp [executeRuler, hl, hr]
      | ok pid =>
        simp only [executeRuler, hl, hr]
        exact scalar_setScalar_ne s1 _ _ _ (pieceUsed_ne_rulerUsed ns)

theorem executeRuler_ok_inv (ns : String) (labels : List String) (rnd : Nat) (s1 : Store V)
    (e : Except Err String) (p : String) (r : List V)
    (h : (executeRuler ns labels rnd s1 e).2 = Except.ok (p, r)) :
    ∃ rid k, e = Except.ok rid ∧ lookupRuler rid = some k ∧
      runRuler k s1 labels rnd = Except.ok p ∧ r = (getEntry s1.cache p).getD [] ∧
      (executeRuler ns labels rnd s1 e).1 = setScalar s1 (pieceUsedKey ns) p := by
  cases e with
  | error er => simp [executeRuler] at h
  | ok rid =>
    cases hl : lookupRuler rid with
    | none => simp [executeRuler, hl] at h
    | some k =>
      cases hr : runRuler k s1 labels rnd with
      | error er => simp [executeRuler, hl, hr] at h
      | ok pid =>
        simp only [executeRuler, hl, hr, Except.ok.injEq, Prod.mk.injEq] at h
        obtain ⟨hp, hres⟩ := h
        subst hp
        exact ⟨rid, k, rfl, hl, hr, hres.symm, by simp [executeRuler, hl, hr]⟩

theorem Execute_ok_results (ctx : Option Stage) (labels : List String) (rnd : Nat)
    (s sE : Store V) (p : String) (r : List V)
    (h : Execute ctx labels rnd s = (sE, Except.ok (p, r))) :
    r = (getEntry s.cache p).getD [] := by
  cases ctx with
  | none => simp [Execute, Prod.ext_iff] at h
  | some st =>
    have h2 : (executeStaged st labels rnd s).2 = Except.ok (p, r) := by
      rw [show executeStaged st labels rnd s = Execute (some st) labels rnd s from rfl, h]
    unfold executeStaged at h2
    simp only [] at h2
    obtain ⟨rid, k, he, hl, hr, hres, hs⟩ := executeRuler_ok_inv _ _ _ _ _ _ _ h2
    rw [hres]
    cases ht : st.trial with
    | true => simp [ht, cache_setScalar] at hres ⊢
    | false => simp [ht] at hres ⊢

/-! ## Claim C8 -/

/-- C8: in trial mode, `Execute` resolves the ruler as the single
highest-scored name in the ruler scored set of the namespace (defaulting to
`"random"` when that query yields no element), unconditionally overwrites
the used-ruler record of the namespace with this name before invoking the ruler,
and the record always equals the ruler actually invoked. -/
theorem C8_trial_ruler_record (s : Store V) (st : Stage) (labels : List String) (rnd : Nat)
    (ht : st.trial = true) :
    (getHighest1 s (rulerListKey (labelsToNamespace labels)) = none →
      trialRuler s (labelsToNamespace labels) = randomRuler) ∧
    (∀ e, getHighest1 s (rulerListKey (labelsToNamespace labels)) = some e →
      trialRuler s (labelsToNamespace labels) = e) ∧
    (Execute (some st) labels rnd s).1.scalar (rulerUsedKey (labelsToNamespace labels))
      = some (trialRuler s (labelsToNamespace labels)) ∧
    (∀ p r, (Execute (some st) labels rnd s).2 = Except.ok (p, r) →
      ∃ k, lookupRuler (trialRuler s (labelsToNamespace labels)) = some k ∧
        runRuler k (setScalar s (rulerUsedKey (labelsToNamespace labels))
          (trialRuler s (labelsToNamespace labels))) labels rnd = Except.ok p) := by
  have hE : Execute (some st) labels rnd s
      = executeRuler (labelsToNamespace labels) labels rnd
          (setScalar s (rulerUsedKey (labelsToNamespace labels))
            (trialRuler s (labelsToNamespace labels)))
          (Except.ok (trialRuler s (labelsToNamespace labels))) := by
    cases hr : st.replay with
    | true =>
      simp [Execute, executeStaged, ht, hr, getScalar, setScalar, getEntry_setEntry_self]
    | false =>
      simp [Execute, executeStaged, ht, hr]
  refine ⟨fun h => by simp [trialRuler, h], fun e h => by simp [trialRuler, h], ?_, ?_⟩
  · rw [hE, executeRuler_scalar_rulerUsed]
    exact scalar_setScalar_self s _ _
  · intro p r h
    rw [hE] at h
    obtain ⟨rid, k, he, hl, hrun, _, _⟩ := executeRuler_ok_inv _ _ _ _ _ _ _ h
    cases he
    exact ⟨k, hl, hrun⟩

/-- Witness for C8 on the empty store in trial-only mode. -/
theorem C8_witness :
    (getHighest1 emptyStoreNat (rulerListKey (labelsToNamespace ["a"])) = none →
      trialRuler emptyStoreNat (labelsToNamespace ["a"]) = randomRuler) ∧
    (∀ e, getHighest1 emptyStoreNat (rulerListKey (labelsToNamespace ["a"])) = some e →
      trialRuler emptyStoreNat (labelsToNamespace ["a"]) = e) ∧
    (Execute (some ⟨true, false⟩) ["a"] 0 emptyStoreNat).1.scalar
        (rulerUsedKey (labelsToNamespace ["a"]))
      = some (trialRuler emptyStoreNat (labelsToNamespace ["a"])) ∧
    (∀ p r, (Execute (some ⟨true, false⟩) ["a"] 0 emptyStoreNat).2 = Except.ok (p, r) →
      ∃ k, lookupRuler (trialRuler emptyStoreNat (labelsToNamespace ["a"])) = some k ∧
        runRuler k (setScalar emptyStoreNat (rulerUsedKey (labelsToNamespace ["a"]))
          (trialRuler emptyStoreNat (labelsToNamespace ["a"]))) ["a"] 0 = Except.ok p) :=
  C8_trial_ruler_record emptyStoreNat ⟨true, false⟩ ["a"] 0 rfl

/-! ## Claim C1 -/

/-- Concrete two-piece store on which the random ruler re-draws. -/
def sC1 : Store Nat := ⟨[(pieceListKey "a", [("p1", 0), ("p2", 0)])], [], []⟩

/-- C1 counterexample: a trial `Execute` whose recorded ruler is `"random"`
returns `"p1"`, and an immediately following replay `Execute` on the very
store the trial produced (storage unchanged in between) re-invokes the
random ruler with a fresh pseudo-random draw and returns `"p2"` — replay
does not reproduce the trial `pieceID`. -/
theorem C1_counterexample :
    (Execute (some ⟨true, false⟩) ["a"] 0 sC1).2 = Except.ok ("p1", ([] : List Nat)) ∧
    (Execute (some ⟨true, false⟩) ["a"] 0 sC1).1.scalar (rulerUsedKey "a") = some "random" ∧
    (Execute (some ⟨false, true⟩) ["a"] 1 (Execute (some ⟨true, false⟩) ["a"] 0 sC1).1).2
      = Except.ok ("p2", ([] : List Nat)) ∧
    ("p1" : String) ≠ "p2" :=
  ⟨rfl, rfl, rfl, by decide⟩

/-- C1 amended: replay reproduces the ruler choice of the trial; whenever the
ruler resolved by the trial is the deterministic `"highest"` ruler, the
replay `Execute` on the store left by the trial returns the same `pieceID`
as the trial did.  (When the recorded ruler is `"random"`, the piece is
re-drawn and may differ — see the counterexample.) -/
theorem C1_replay_reproduces_deterministic (labels : List String) (s : Store V)
    (rnd1 rnd2 : Nat) (p : String)
    (hr : getHighest1 s (rulerListKey (labelsToNamespace labels)) = some highestRuler)
    (hp : getHighest1 s (pieceListKey (labelsToNamespace labels)) = some p) :
    ∃ s1 r1, Execute (some ⟨true, false⟩) labels rnd1 s = (s1, Except.ok (p, r1)) ∧
      ∃ s2 r2, Execute (some ⟨false, true⟩) labels rnd2 s1 = (s2, Except.ok (p, r2)) := by
  have htr : trialRuler s (labelsToNamespace labels) = highestRuler := by
    simp [trialRuler, hr]
  have hlk : lookupRuler highestRuler = some RulerKind.highest := rfl
  have e1 : Execute (some ⟨true, false⟩) labels rnd1 s
      = (setScalar (setScalar s (rulerUsedKey (labelsToNamespace labels)) highestRuler)
            (pieceUsedKey (labelsToNamespace labels)) p,
          Except.ok (p, (getEntry s.cache p).getD [])) := by
    simp [Execute, executeStaged, htr, executeRuler, hlk, runRuler,
      getHighest1_setScalar, hp, cache_setScalar]
  have hread : getScalar (setScalar (setScalar s (rulerUsedKey (labelsToNamespace labels))
        highestRuler) (pieceUsedKey (labelsToNamespace labels)) p)
      (rulerUsedKey (labelsToNamespace labels)) = Except.ok highestRuler := by
    unfold getScalar
    rw [show (setScalar (setScalar s (rulerUsedKey (labelsToNamespace labels)) highestRuler)
        (pieceUsedKey (labelsToNamespace labels)) p).scalars
      = setEntry (setEntry s.scalars (rulerUsedKey (labelsToNamespace labels)) highestRuler)
          (pieceUsedKey (labelsToNamespace labels)) p from rfl]
    rw [getEntry_setEntry_ne _ _ _ _ (pieceUsed_ne_rulerUsed _), getEntry_setEntry_self]
  have e2 : Execute (some ⟨false, true⟩) labels rnd2
        (setScalar (setScalar s (rulerUsedKey (labelsToNamespace labels)) highestRuler)
          (pieceUsedKey (labelsToNamespace labels)) p)
      = (setScalar (setScalar (setScalar s (rulerUsedKey (labelsToNamespace labels))
              highestRuler) (pieceUsedKey (labelsToNamespace labels)) p)
            (pieceUsedKey (labelsToNamespace labels)) p,
          Except.ok (p, (getEntry s.cache p).getD [])) := by
    simp [Execute, executeStaged, hread, executeRuler, hlk, runRuler,
      getHighest1_setScalar, hp, cache_setScalar]
  exact ⟨_, _, e1, _, _, e2⟩

/-- Concrete store for the C1 witness: ruler history selects `"highest"`. -/
def sC1w : Store Nat :=
  ⟨[(rulerListKey "a", [("highest", 1)]), (pieceListKey "a", [("p1", 0)])], [], []⟩

/-- Witness for C1 (amended): trial then replay both return `"p1"`. -/
theorem C1_witness :
    ∃ s1 r1, Execute (some ⟨true, false⟩) ["a"] 0 sC1w = (s1, Except.ok ("p1", r1)) ∧
      ∃ s2 r2, Execute (some ⟨false, true⟩) ["a"] 1 s1 = (s2, Except.ok ("p1", r2)) :=
  C1_replay_reproduces_deterministic ["a"] sC1w 0 1 "p1" rfl rfl

/-! ## Claim C2 -/

/-- C2: `Create` stores results under the concatenated cache key
`appendToNamespace(pieceListKey(ns), pieceID)` (which always begins with
the prefix `"service:configuration:namespace:"`), while `Execute` looks the
cache up by the bare `pieceID`; hence whenever the piece identifier
returned by `Execute` does not itself begin with that prefix, `Execute`
returns the empty result sequence even immediately after `Create`
registered results for that `pieceID` — the registered results are never
returned. -/
theorem C2_bare_lookup_misses_cache (st st2 : Stage) (labels : List String) (pid : String)
    (res : List V) (rnd : Nat) (s sE : Store V) (p : String) (r : List V)
    (hall : ∀ kv ∈ s.cache, strStartsWith kv.1 nsPrefix = true)
    (hpid : strStartsWith pid nsPrefix = false)
    (hex : Execute (some st2) labels rnd (Create (some st) labels pid res s).1
      = (sE, Except.ok (p, r)))
    (hp : p = pid) : r = [] := by
  subst hp
  have hres := Execute_ok_results _ _ _ _ _ _ _ hex
  rw [cache_Create] at hres
  have hall2 : ∀ kv ∈ setEntry s.cache
      (appendToNamespace (pieceListKey (labelsToNamespace labels)) p) res,
      strStartsWith kv.1 nsPrefix = true := by
    intro kv hkv
    rcases mem_setEntry hkv with h | h
    · rw [h]
      exact cacheKey_startsWith_nsPrefix _ _
    · exact hall kv h
  rw [getEntry_none_of_startsWith _ _ _ hall2 hpid] at hres
  exact hres

/-- Store after `Create` then `Execute` for the C2 witness. -/
def sC2out : Store Nat :=
  ⟨[(rulerListKey "a", [("random", 0), ("highest", 0)]), (pieceListKey "a", [("p", 0)])],
    [(rulerUsedKey "a", "random"), (pieceUsedKey "a", "p")],
    [(appendToNamespace (pieceListKey "a") "p", [1])]⟩

/-- Witness for C2: on the empty store, `Create` registers results `[1]`
for piece `"p"`, the following trial `Execute` returns `"p"` with the empty
result sequence. -/
theorem C2_witness : strStartsWith "p" nsPrefix = false ∧ ([] : List Nat) = [] :=
  ⟨rfl, C2_bare_lookup_misses_cache ⟨true, false⟩ ⟨true, false⟩ ["a"] "p" [1] 0
    emptyStoreNat sC2out "p" []
    (fun kv h => absurd h (List.not_mem_nil kv)) rfl rfl rfl⟩

/-! ## Claim C4 -/

/-- Store holding used-ruler and used-piece records, for concrete runs. -/
def sUsed : Store Nat :=
  ⟨[], [(rulerUsedKey "a", "random"), (pieceUsedKey "a", "p1")], []⟩

/-- C4 counterexample: `Failure` (via `Delete`) does not remove the
used-ruler and used-piece scalar records of the namespace — after a successful
`Failure` call both records are still present, contradicting the claim
that every other persistent record of the namespace is removed. -/
theorem C4_counterexample :
    (Failure (some ⟨true, false⟩) ["a"] sUsed).2 = Except.ok () ∧
    (Failure (some ⟨true, false⟩) ["a"] sUsed).1.scalar (rulerUsedKey "a") = some "random" ∧
    (Failure (some ⟨true, false⟩) ["a"] sUsed).1.scalar (pieceUsedKey "a") = some "p1" :=
  ⟨rfl, rfl, rfl⟩

/-- C4 amended: `Failure` (delegating to `Delete`) removes both persistent
scored sets of the namespace (ruler list and piece list) and exactly the
local cache entries whose key has the piece-list key of the
namespace as a prefix, leaves every other scored set untouched — and leaves the scalar
records (in particular the used-ruler and used-piece records) unchanged. -/
theorem C4_failure_deletes (s : Store V) (ctx : Option Stage) (labels : List String) :
    (Failure ctx labels s).2 = Except.ok () ∧
    members (Failure ctx labels s).1 (rulerListKey (labelsToNamespace labels)) = [] ∧
    members (Failure ctx labels s).1 (pieceListKey (labelsToNamespace labels)) = [] ∧
    (Failure ctx labels s).1.cache
      = s.cache.filter (fun kv => !(strStartsWith kv.1 (pieceListKey (labelsToNamespace labels)))) ∧
    (Failure ctx labels s).1.scalars = s.scalars ∧
    (∀ key, key ≠ rulerListKey (labelsToNamespace labels) →
      key ≠ pieceListKey (labelsToNamespace labels) →
      members (Failure ctx labels s).1 key = members s key) := by
  refine ⟨rfl, ?_, ?_, rfl, rfl, ?_⟩
  · simp [Failure, Delete, members, removeKey,
      getEntry_removeEntry_ne _ _ _ (pieceList_ne_rulerList _), getEntry_removeEntry_self]
  · simp [Failure, Delete, members, removeKey, getEntry_removeEntry_self]
  · intro key h1 h2
    simp [Failure, Delete, members, removeKey,
      getEntry_removeEntry_ne _ _ _ (Ne.symm h2), getEntry_removeEntry_ne _ _ _ (Ne.symm h1)]

/-- Witness for C4 (amended) at a concrete store and an unrelated key. -/
theorem C4_witness :
    (Failure (some ⟨true, false⟩) ["a"] sUsed).2 = Except.ok () ∧
    members (Failure (some ⟨true, false⟩) ["a"] sUsed).1 (rulerListKey "x")
      = members sUsed (rulerListKey "x") :=
  ⟨(C4_failure_deletes sUsed (some ⟨true, false⟩) ["a"]).1,
    (C4_failure_deletes sUsed (some ⟨true, false⟩) ["a"]).2.2.2.2.2 (rulerListKey "x")
      (by decide) (by decide)⟩

/-! ## Claim C6 -/

theorem score_after_ensure (sx s0 : Store V) (key m : String)
    (hm : members sx key = members s0 key) :
    (if existsInScoredSet sx key m then sx else setElementByScore sx key m 0).score key m
      = some ((s0.score key m).getD 0) := by
  by_cases h : (getEntry (members s0 key) m).isSome = true
  · obtain ⟨c, hc⟩ := Option.isSome_iff_exists.mp h
    have hcond : existsInScoredSet sx key m = true := by
      unfold existsInScoredSet
      rw [hm]
      exact h
    rw [if_pos hcond]
    unfold Store.score
    rw [hm, hc]
    simp [Store.score, hc]
  · have hnone : getEntry (members s0 key) m = none := Option.not_isSome_iff_eq_none.mp h
    have hcond : ¬ (existsInScoredSet sx key m = true) := by
      unfold existsInScoredSet
      rw [hm]
      exact h
    rw [if_neg hcond]
    unfold Store.score
    rw [members_setElementByScore_self, getEntry_setEntry_self]
    simp [Store.score, hnone]

/-- C6: `Create` is idempotent with respect to persisted scores — it never
errors on a stage-bearing context, the score of the piece after `Create` is its
previous score when the piece was already a member and 0 otherwise (a
second `Create` with the same `pieceID` does not change an existing score),
while the local cache entry under the namespaced key is unconditionally
overwritten with the new results. -/
theorem C6_create_idempotent (st : Stage) (labels : List String) (pid : String)
    (res : List V) (s : Store V) :
    (Create (some st) labels pid res s).2 = Except.ok () ∧
    (Create (some st) labels pid res s).1.score (pieceListKey (labelsToNamespace labels)) pid
      = some ((s.score (pieceListKey (labelsToNamespace labels)) pid).getD 0) ∧
    (Create (some st) labels pid res s).1.cacheGet
        (appendToNamespace (pieceListKey (labelsToNamespace labels)) pid) = some res := by
  refine ⟨rfl, ?_, ?_⟩
  · have hseed : members (setElementByScore
        (setElementByScore s (rulerListKey (labelsToNamespace labels)) randomRuler 0)
        (rulerListKey (labelsToNamespace labels)) highestRuler 0)
        (pieceListKey (labelsToNamespace labels))
        = members s (pieceListKey (labelsToNamespace labels)) := by
      rw [members_setElementByScore_ne _ _ _ _ _ (rulerList_ne_pieceList _),
        members_setElementByScore_ne _ _ _ _ _ (rulerList_ne_pieceList _)]
    have hm1 : members (if st.trial then
          (if storeExists s (rulerListKey (labelsToNamespace labels)) then s
           else setElementByScore
             (setElementByScore s (rulerListKey (labelsToNamespace labels)) randomRuler 0)
             (rulerListKey (labelsToNamespace labels)) highestRuler 0)
        else s) (pieceListKey (labelsToNamespace labels))
        = members s (pieceListKey (labelsToNamespace labels)) := by
      split_ifs with h1 h2
      · rfl
      · exact hseed
      · rfl
    exact score_after_ensure _ s _ pid hm1
  · unfold Store.cacheGet
    rw [cache_Create, getEntry_setEntry_self]

/-- Witness for C6 (second `Create` with the same piece after a `Success`
would not reset the score; here: at a concrete store the score is kept and
the cache overwritten). -/
theorem C6_witness :
    (Create (some ⟨true, false⟩) ["a"] "p1" [7] sC2out).2 = Except.ok () ∧
    (Create (some ⟨true, false⟩) ["a"] "p" [7] sC2out).1.score (pieceListKey "a") "p"
      = some 0 ∧
    (Create (some ⟨true, false⟩) ["a"] "p" [7] sC2out).1.cacheGet
        (appendToNamespace (pieceListKey "a") "p") = some [7] :=
  ⟨(C6_create_idempotent ⟨true, false⟩ ["a"] "p1" [7] sC2out).1,
    (C6_create_idempotent ⟨true, false⟩ ["a"] "p" [7] sC2out).2.1,
    (C6_create_idempotent ⟨true, false⟩ ["a"] "p" [7] sC2out).2.2⟩

/-! ## Claim C7 -/

/-- C7: when both the used-ruler and the used-piece record are present,
`Success` succeeds and increments exactly two scores by exactly 1 — the score
of the recorded ruler in the ruler scored set and the score of the recorded
piece in the piece scored set — changing no other score, no scalar record
and no cache entry; when either record read fails, `Success` fails with the
storage error. -/
theorem C7_success_increments (s : Store V) (ctx : Option Stage) (labels : List String) :
    (∀ rid pid, s.scalar (rulerUsedKey (labelsToNamespace labels)) = some rid →
      s.scalar (pieceUsedKey (labelsToNamespace labels)) = some pid →
      (Success ctx labels s).2 = Except.ok () ∧
      (Success ctx labels s).1.score (rulerListKey (labelsToNamespace labels)) rid
        = some ((s.score (rulerListKey (labelsToNamespace labels)) rid).getD 0 + 1) ∧
      (Success ctx labels s).1.score (pieceListKey (labelsToNamespace labels)) pid
        = some ((s.score (pieceListKey (labelsToNamespace labels)) pid).getD 0 + 1) ∧
      (∀ key m, ¬(key = rulerListKey (labelsToNamespace labels) ∧ m = rid) →
        ¬(key = pieceListKey (labelsToNamespace labels) ∧ m = pid) →
        (Success ctx labels s).1.score key m = s.score key m) ∧
      (Success ctx labels s).1.scalars = s.scalars ∧
      (Success ctx labels s).1.cache = s.cache) ∧
    (s.scalar (rulerUsedKey (labelsToNamespace labels)) = none →
      (Success ctx labels s).2 = Except.error Err.notFound) ∧
    (∀ rid, s.scalar (rulerUsedKey (labelsToNamespace labels)) = some rid →
      s.scalar (pieceUsedKey (labelsToNamespace labels)) = none →
      (Success ctx labels s).2 = Except.error Err.notFound) := by
  refine ⟨?_, ?_, ?_⟩
  · intro rid pid hru hpu
    have hru2 : getEntry s.scalars (rulerUsedKey (labelsToNamespace labels)) = some rid := hru
    have hpu2 : getEntry s.scalars (pieceUsedKey (labelsToNamespace labels)) = some pid := hpu
    have hS : Success ctx labels s
        = (incrementScoredElement
            (incrementScoredElement s (rulerListKey (labelsToNamespace labels)) rid 1)
            (pieceListKey (labelsToNamespace labels)) pid 1, Except.ok ()) := by
      simp [Success, getScalar, hru2, scalars_incrementScoredElement, hpu2]
    rw [hS]
    refine ⟨rfl, ?_, ?_, ?_, rfl, rfl⟩
    · unfold Store.score
      rw [members_incrementScoredElement_ne _ _ _ _ _ (pieceList_ne_rulerList _),
        members_incrementScoredElement_self, getEntry_setEntry_self]
    · unfold Store.score
      rw [members_incrementScoredElement_self,
        members_incrementScoredElement_ne _ _ _ _ _ (rulerList_ne_pieceList _),
        getEntry_setEntry_self]
    · intro key m hnr hnp
      unfold Store.score
      by_cases hkpl : key = pieceListKey (labelsToNamespace labels)
      · subst hkpl
        have hmp : m ≠ pid := fun hc => hnp ⟨rfl, hc⟩
        rw [members_incrementScoredElement_self,
          getEntry_setEntry_ne _ _ _ _ (Ne.symm hmp),
          members_incrementScoredElement_ne _ _ _ _ _ (rulerList_ne_pieceList _)]
      · rw [members_incrementScoredElement_ne _ _ _ _ _ (fun hc => hkpl hc.symm)]
        by_cases hkrl : key = rulerListKey (labelsToNamespace labels)
        · subst hkrl
          have hmr : m ≠ rid := fun hc => hnr ⟨rfl, hc⟩
          rw [members_incrementScoredElement_self,
            getEntry_setEntry_ne _ _ _ _ (Ne.symm hmr)]
        · rw [members_incrementScoredElement_ne _ _ _ _ _ (fun hc => hkrl hc.symm)]
  · intro hru
    have hru2 : getEntry s.scalars (rulerUsedKey (labelsToNamespace labels)) = none := hru
    simp [Success, getScalar, hru2]
  · intro rid hru hpu
    have hru2 : getEntry s.scalars (rulerUsedKey (labelsToNamespace labels)) = some rid := hru
    have hpu2 : getEntry s.scalars (pieceUsedKey (labelsToNamespace labels)) = none := hpu
    simp [Success, getScalar, hru2, scalars_incrementScoredElement, hpu2]

/-- Witness for C7: on a store holding both records, `Success` succeeds and
both recorded scores become 1. -/
theorem C7_witness :
    (Success (some ⟨true, false⟩) ["a"] sUsed).2 = Except.ok () ∧
    (Success (some ⟨true, false⟩) ["a"] sUsed).1.score (rulerListKey "a") "random" = some 1 ∧
    (Success (some ⟨true, false⟩) ["a"] sUsed).1.score (pieceListKey "a") "p1" = some 1 := by
  obtain ⟨h1, h2, h3, _⟩ :=
    (C7_success_increments sUsed (some ⟨true, false⟩) ["a"]).1 "random" "p1" rfl rfl
  exact ⟨h1, h2, h3⟩

end AnnaConfiguration
